import Mathlib

set_option autoImplicit false

/-!
Shallow embedding of MHmorgan/watch (src/watch.go and the screen backends).

Bytes are modelled as `List Nat`; the Adler-32 checksum (hash/adler32) is
modelled with per-byte modular reduction, which agrees with the deferred
reduction of the real implementation because addition respects `% 65521`.
-/

-- ---------------------------------------------------------------------------
-- Fingerprinter: hash/adler32

def adlerMod : Nat := 65521

structure Adler where
  s1 : Nat
  s2 : Nat
deriving DecidableEq, Repr

/-- `adler32.New()`: fresh state, whose `Sum32` is 1. -/
def adlerInit : Adler := ⟨1, 0⟩

def adlerByte (st : Adler) (b : Nat) : Adler :=
  let s1 := (st.s1 + b) % adlerMod
  ⟨s1, (st.s2 + s1) % adlerMod⟩

/-- `hash.Write(data)`: feed a chunk of bytes into the running state. -/
def adlerWrite (st : Adler) (data : List Nat) : Adler :=
  data.foldl adlerByte st

/-- `hash.Sum32()`. -/
def Adler.sum32 (st : Adler) : Nat := st.s2 * 65536 + st.s1

/-- `adler32.Checksum(data)`: one-shot checksum of a byte sequence. -/
def adler32 (data : List Nat) : Nat := (adlerWrite adlerInit data).sum32

/-- Feeding a list of chunks one `Write` at a time. -/
def adlerFeedChunks (st : Adler) (chunks : List (List Nat)) : Adler :=
  chunks.foldl adlerWrite st

/-- ASCII bytes of a string (all source inputs of interest are ASCII). -/
def strBytes (s : String) : List Nat := s.data.map (fun c => c.toNat)

-- ---------------------------------------------------------------------------
-- WatchCommand (src/watch.go lines 131-163)

/-- Classification of `c.err` (a Go `error` value) after `run()`. -/
inductive CmdErr where
  | noError
  | exitError (code : Int)
  | deadlineExceeded
  | other (msg : String)
deriving DecidableEq, Repr

structure WatchCommand where
  name : String
  args : List String
  timeoutSecs : Nat
  buf : List Nat
  prev : Nat
  err : CmdErr
deriving DecidableEq, Repr

/-- A `WatchCommand` as built in `main`: Go zero values for buf, prev, err. -/
def WatchCommand.init (name : String) (args : List String) (t : Nat) : WatchCommand :=
  { name := name, args := args, timeoutSecs := t, buf := [], prev := 0, err := .noError }

/-- How the external process behaved during one execution: the bytes it wrote
to the shared stdout/stderr buffer, and what `cmd.Run()` returned. -/
inductive ProcExit where
  | success
  | exitCode (code : Int)
  | startErr (msg : String)
deriving DecidableEq, Repr

structure ProcResult where
  out : List Nat
  exit : ProcExit
deriving DecidableEq, Repr

/-- `WatchCommand.run`: snapshot the previous buffer's checksum, reset the
buffer, run the process under the deadline context; `deadlineHit` models
`ctx.Err() != nil`, which overwrites the error from `cmd.Run()`. -/
def WatchCommand.run (c : WatchCommand) (res : ProcResult) (deadlineHit : Bool) :
    WatchCommand :=
  let prev := adler32 c.buf
  let err0 : CmdErr :=
    match res.exit with
    | .success => .noError
    | .exitCode k => .exitError k
    | .startErr m => .other m
  { c with prev := prev, buf := res.out,
           err := if deadlineHit then .deadlineExceeded else err0 }

/-- `WatchCommand.hasChanged`: previous snapshot vs checksum of current buffer. -/
def WatchCommand.hasChanged (c : WatchCommand) : Bool :=
  c.prev != adler32 c.buf

/-- Go `unicode.IsSpace` restricted to single bytes, as used by `TrimSpace`. -/
def isSpaceByte (b : Nat) : Bool :=
  b == 32 || b == 9 || b == 10 || b == 11 || b == 12 || b == 13

/-- `WatchCommand.output`: the buffer with leading/trailing whitespace trimmed. -/
def WatchCommand.output (c : WatchCommand) : List Nat :=
  ((c.buf.dropWhile isSpaceByte).reverse.dropWhile isSpaceByte).reverse

-- ---------------------------------------------------------------------------
-- Filesystem model and WatchPaths (src/watch.go lines 168-238)

/-- A filesystem node: a regular file with its content, or a directory with
its children. Names are the base names used for lexical ordering. -/
inductive FSNode where
  | file (name : String) (content : List Nat)
  | dir (name : String) (children : List FSNode)
deriving Repr

def FSNode.name : FSNode → String
  | .file n _ => n
  | .dir n _ => n

/-- The filesystem: resolves a path string to the node it denotes, if any. -/
def FS := String → Option FSNode

/-- Lexicographic byte-order comparison of names, as `sort.Strings` uses. -/
def charListLt : List Char → List Char → Bool
  | [], [] => false
  | [], _ :: _ => true
  | _ :: _, [] => false
  | a :: as, b :: bs =>
    if a.toNat < b.toNat then true
    else if b.toNat < a.toNat then false
    else charListLt as bs

def strLtb (a b : String) : Bool := charListLt a.data b.data

def insertPair (x : String × List (List Nat)) :
    List (String × List (List Nat)) → List (String × List (List Nat))
  | [] => [x]
  | y :: ys => if strLtb x.1 y.1 then x :: y :: ys else y :: insertPair x ys

/-- Sort (name, payload) pairs by name: models `sort.Strings` applied by
`filepath.Walk` to the entries of each directory. -/
def sortPairs : List (String × List (List Nat)) → List (String × List (List Nat))
  | [] => []
  | x :: xs => insertPair x (sortPairs xs)

mutual
/-- Models Go `filepath.Walk`: visit the node; a regular file contributes its
content; a directory recurses into its entries in lexical name order
(depth-first). Returns the contents of the regular files in visit order. -/
def walkFiles : FSNode → List (List Nat)
  | .file _ content => [content]
  | .dir _ children => (sortPairs (walkChildren children)).flatMap (fun p => p.2)

def walkChildren : List FSNode → List (String × List (List Nat))
  | [] => []
  | c :: cs => (c.name, walkFiles c) :: walkChildren cs
end

-- ---------------------------------------------------------------------------
-- strings.Fields

/-- Go `unicode.IsSpace` on the ASCII characters relevant to `strings.Fields`. -/
def isSpaceChar (c : Char) : Bool :=
  c == ' ' || c == '\t' || c == '\n' || c == '\x0b' || c == '\x0c' || c == '\r'

def fieldsGo : List Char → List Char → List (List Char)
  | [], acc => if acc.isEmpty then [] else [acc.reverse]
  | c :: rest, acc =>
    if isSpaceChar c then
      if acc.isEmpty then fieldsGo rest [] else acc.reverse :: fieldsGo rest []
    else fieldsGo rest (c :: acc)

/-- `strings.Fields`: split around runs of whitespace. -/
def fields (s : String) : List String :=
  (fieldsGo s.data []).map (fun cs => String.mk cs)

-- ---------------------------------------------------------------------------
-- WatchPaths

structure WatchPathsState where
  files : List String
  dirs : List String
  prev : Nat
  hash : Adler
deriving DecidableEq, Repr

/-- A `*WatchPaths` value: `absent` is the nil pointer returned for an empty
path string; methods on it are nil-receiver no-ops. -/
inductive WatchPaths where
  | absent
  | present (st : WatchPathsState)
deriving DecidableEq, Repr

/-- `os.Stat` classification loop of `NewWatchPaths`: dirs to `dirs`, other
existing paths to `files`, missing paths are fatal (`bail`). -/
def classifyPaths (fs : FS) : List String → Except String (List String × List String)
  | [] => .ok ([], [])
  | p :: rest =>
    match fs p with
    | none => .error ("invalid path " ++ p)
    | some (.dir _ _) =>
        (classifyPaths fs rest).map (fun pr => (pr.1, p :: pr.2))
    | some (.file _ _) =>
        (classifyPaths fs rest).map (fun pr => (p :: pr.1, pr.2))

/-- `NewWatchPaths`: nil for an empty path string; otherwise split the string
into fields and classify each path. Fresh state has Go zero `prev` (0) and a
fresh adler32 hash. -/
def NewWatchPaths (fs : FS) (pathStr : String) : Except String WatchPaths :=
  if pathStr = "" then .ok .absent
  else
    match classifyPaths fs (fields pathStr) with
    | .error e => .error e
    | .ok pr => .ok (.present { files := pr.1, dirs := pr.2, prev := 0, hash := adlerInit })

/-- `WatchPaths.hasChanged`: nil receiver → always true; otherwise compare the
previous finalized fingerprint with the current accumulator's sum. -/
def WatchPaths.hasChanged : WatchPaths → Bool
  | .absent => true
  | .present st => st.prev != st.hash.sum32

/-- `os.ReadFile` on an explicit watched file. -/
def readFile (fs : FS) (f : String) : Except String (List Nat) :=
  match fs f with
  | some (.file _ content) => .ok content
  | _ => .error ("error reading " ++ f)

def readFiles (fs : FS) : List String → Except String (List (List Nat))
  | [] => .ok []
  | f :: rest =>
    match readFile fs f with
    | .error e => .error e
    | .ok data =>
      match readFiles fs rest with
      | .error e => .error e
      | .ok ds => .ok (data :: ds)

def walkDirs (fs : FS) : List String → Except String (List (List Nat))
  | [] => .ok []
  | d :: rest =>
    match fs d with
    | some node =>
      match walkDirs fs rest with
      | .error e => .error e
      | .ok ds => .ok (walkFiles node ++ ds)
    | none => .error ("error walking " ++ d)

/-- The sequence of byte chunks the producer goroutine streams through the
channel during `update()`: the explicit files, in configured order, then
every regular file found by walking each directory in turn. -/
def producedChunks (fs : FS) (st : WatchPathsState) : Except String (List (List Nat)) :=
  match readFiles fs st.files with
  | .error e => .error e
  | .ok fileData =>
    match walkDirs fs st.dirs with
    | .error e => .error e
    | .ok dirData => .ok (fileData ++ dirData)

/-- `WatchPaths.update`: nil receiver → no-op. Otherwise finalize `prev`,
reset the hash, and feed every produced chunk through `hash.Write` in channel
order; any walk or read failure is fatal (`bail`). -/
def WatchPaths.update (fs : FS) : WatchPaths → Except String WatchPaths
  | .absent => .ok .absent
  | .present st =>
    let prev := st.hash.sum32
    match producedChunks fs st with
    | .error e => .error e
    | .ok chunks =>
        .ok (.present { st with prev := prev, hash := adlerFeedChunks adlerInit chunks })

/-- Iterate `update` a number of times (successive poll cycles). -/
def updateIter (fs : FS) : Nat → WatchPaths → Except String WatchPaths
  | 0, p => .ok p
  | n + 1, p =>
    match WatchPaths.update fs p with
    | .error e => .error e
    | .ok p' => updateIter fs n p'

-- ---------------------------------------------------------------------------
-- Scheduler loop (src/watch.go lines 99-126)

structure LoopState where
  cmd : WatchCommand
  paths : WatchPaths
  first : Bool
deriving DecidableEq, Repr

/-- The observable result of one loop cycle after the sleep: either the loop
continues with a new state (recording whether the command ran, the status
pushed to the screen, and the frame written, if any), or the process
terminates fatally via `bail` with the given message (`ran` records whether
`cmd.run()` had already happened this cycle). -/
inductive CycleResult where
  | step (st : LoopState) (ran : Bool) (status : Option String) (frame : Option (List Nat))
  | fatal (ran : Bool) (msg : String)
deriving DecidableEq, Repr

/-- The status-or-bail chain of `main` after `cmd.run()` (lines 109-119):
`*exec.ExitError` first, then `context.DeadlineExceeded`, then any other
non-nil error, then the empty-output check. `.ok` is the status string set on
the screen, `.error` is the `bail` message. -/
def classifyErr (c : WatchCommand) : Except String String :=
  match c.err with
  | .exitError k => .ok ("exit code " ++ toString k)
  | .deadlineExceeded => .error ("timeout after " ++ toString c.timeoutSecs ++ "s")
  | .other m => .error ("executing " ++ c.name ++ ": " ++ m)
  | .noError => .ok (if c.output = [] then "no output" else "")

/-- One cycle of the watch loop: update the paths, skip if unchanged, run the
command, classify its error, then redraw iff the output changed or this is
the first cycle that executed the command. `res`/`deadlineHit` model the
external process behaviour during this cycle's execution. -/
def cycle (fs : FS) (res : ProcResult) (deadlineHit : Bool) (st : LoopState) :
    CycleResult :=
  match WatchPaths.update fs st.paths with
  | .error e => .fatal false e
  | .ok paths' =>
    if paths'.hasChanged then
      let cmd' := st.cmd.run res deadlineHit
      match classifyErr cmd' with
      | .error m => .fatal true m
      | .ok status =>
        let frame := if cmd'.hasChanged || st.first then some cmd'.buf else none
        .step { cmd := cmd', paths := paths', first := false } true (some status) frame
    else
      .step { st with paths := paths' } false none none

/-- Whether `cmd.run()` was executed during the cycle. -/
def CycleResult.ran : CycleResult → Bool
  | .step _ r _ _ => r
  | .fatal r _ => r

/-- A filesystem with a single empty directory "d": a watch set over it
contains zero regular files. -/
def fsEmptyDir : FS := fun p =>
  if p = "d" then some (FSNode.dir "d" []) else none

/-- A filesystem with an explicit file "f" and a directory "d" whose entries
are deliberately out of lexical order, with a nested subdirectory. -/
def fsNested : FS := fun p =>
  if p = "f" then some (FSNode.file "f" [1, 2])
  else if p = "d" then
    some (FSNode.dir "d"
      [FSNode.file "b" [3], FSNode.dir "a" [FSNode.file "z" [4]], FSNode.file "c" [5]])
  else none

-- ---------------------------------------------------------------------------
-- General lemmas

theorem adlerInit_sum32 : adlerInit.sum32 = 1 := rfl

theorem update_present_eq (fs : FS) (st : WatchPathsState) :
    WatchPaths.update fs (WatchPaths.present st)
      = match producedChunks fs st with
        | .error e => .error e
        | .ok chunks =>
            Except.ok (WatchPaths.present
              (WatchPathsState.mk st.files st.dirs st.hash.sum32
                (adlerFeedChunks adlerInit chunks))) := rfl

theorem adlerWrite_append (st : Adler) (a b : List Nat) :
    adlerWrite st (a ++ b) = adlerWrite (adlerWrite st a) b := by
  simp [adlerWrite, List.foldl_append]

theorem adlerFeedChunks_eq_write_join (st : Adler) (chunks : List (List Nat)) :
    adlerFeedChunks st chunks = adlerWrite st chunks.flatten := by
  induction chunks generalizing st with
  | nil => simp [adlerFeedChunks, adlerWrite]
  | cons a rest ih =>
      simp only [adlerFeedChunks, List.foldl_cons, List.flatten_cons, adlerWrite_append]
      exact ih (adlerWrite st a)

theorem adlerWrite_zeros (n s2 : Nat) (h2 : s2 < adlerMod) :
    adlerWrite ⟨1, s2⟩ (List.replicate n 0) = ⟨1, (s2 + n) % adlerMod⟩ := by
  induction n generalizing s2 with
  | zero => simp [adlerWrite, Nat.mod_eq_of_lt h2]
  | succ n ih =>
      have h1 : adlerByte ⟨1, s2⟩ 0 = ⟨1, (s2 + 1) % adlerMod⟩ := by
        simp [adlerByte, adlerMod]
      have hlt : (s2 + 1) % adlerMod < adlerMod := Nat.mod_lt _ (by decide)
      calc adlerWrite ⟨1, s2⟩ (List.replicate (n + 1) 0)
          = adlerWrite ⟨1, (s2 + 1) % adlerMod⟩ (List.replicate n 0) := by
            simp [List.replicate_succ, adlerWrite, h1]
        _ = ⟨1, ((s2 + 1) % adlerMod + n) % adlerMod⟩ := ih _ hlt
        _ = ⟨1, (s2 + (n + 1)) % adlerMod⟩ := by
            rw [Nat.mod_add_mod]
            ring_nf

theorem adler32_zeros_65521 : adler32 (List.replicate 65521 0) = 1 := by
  have h := adlerWrite_zeros 65521 0 (by decide)
  have hstep : adler32 (List.replicate 65521 0)
      = (Adler.mk 1 ((0 + 65521) % adlerMod)).sum32 := by
    unfold adler32
    rw [show adlerInit = Adler.mk 1 0 from rfl, h]
  rw [hstep]
  decide

-- ---------------------------------------------------------------------------
-- Claim theorems

/-- Claim C2: after `run()` the outcome classification is mutually exclusive
with timeout taking precedence: the stored error is the timeout outcome
exactly when the deadline elapsed, regardless of how the process exited; only
when the deadline did not elapse does the outcome reflect the process result
(non-zero exit, generic execution error, or clean). -/
theorem run_timeout_precedence (c : WatchCommand) (res : ProcResult) (dh : Bool) :
    ((c.run res dh).err = CmdErr.deadlineExceeded ↔ dh = true) ∧
    (dh = false →
      (c.run res dh).err =
        match res.exit with
        | .success => CmdErr.noError
        | .exitCode k => CmdErr.exitError k
        | .startErr m => CmdErr.other m) := by
  obtain ⟨out, ex⟩ := res
  cases dh <;> cases ex <;> simp [WatchCommand.run]

theorem run_timeout_precedence_witness :
    ((WatchCommand.init "c" [] 60).run ⟨strBytes "x", ProcExit.exitCode 3⟩ true).err
      = CmdErr.deadlineExceeded :=
  (run_timeout_precedence (WatchCommand.init "c" [] 60)
    ⟨strBytes "x", ProcExit.exitCode 3⟩ true).1.mpr rfl

/-- Claim C8: feeding a sequence of chunks one at a time into the streaming
fingerprinter yields the same 32-bit checksum as feeding their concatenation
in a single call; in particular feeding ["foo","bar"] equals feeding
"foobar". -/
theorem streaming_chunks_eq_concat (chunks : List (List Nat)) :
    (adlerFeedChunks adlerInit chunks).sum32 = adler32 chunks.flatten ∧
    (adlerFeedChunks adlerInit [strBytes "foo", strBytes "bar"]).sum32
      = adler32 (strBytes "foobar") := by
  constructor
  · rw [adlerFeedChunks_eq_write_join]; rfl
  · rw [adlerFeedChunks_eq_write_join]; rfl

/-- Claim C7 (counterexample): after the first `run()` of a fresh command,
`hasChanged()` can be false even though the captured output is non-empty:
65521 zero bytes collide with the Adler-32 checksum of the empty buffer. -/
theorem first_run_collision_counterexample :
    List.replicate 65521 (0 : Nat) ≠ [] ∧
    ((WatchCommand.init "c" [] 60).run
        ⟨List.replicate 65521 0, ProcExit.success⟩ false).hasChanged = false := by
  constructor
  · intro h
    have hlen : (List.replicate 65521 (0 : Nat)).length = ([] : List Nat).length :=
      congrArg List.length h
    rw [List.length_replicate, List.length_nil] at hlen
    omega
  · have hb : ((WatchCommand.init "c" [] 60).run
        ⟨List.replicate 65521 0, ProcExit.success⟩ false).buf
        = List.replicate 65521 0 := rfl
    have hp : ((WatchCommand.init "c" [] 60).run
        ⟨List.replicate 65521 0, ProcExit.success⟩ false).prev
        = adler32 [] := rfl
    unfold WatchCommand.hasChanged
    rw [hb, hp, adler32_zeros_65521]
    decide

/-- Claim C7 (amended): immediately after the first `run()` of a command,
`hasChanged()` is false iff the Adler-32 checksum of the captured output
equals the checksum of the implicit empty previous buffer; in particular it
is false when the output is empty. (It is true for non-empty output except
when the output's checksum collides with the empty checksum.) -/
theorem first_run_hasChanged_iff (name : String) (args : List String) (t : Nat)
    (res : ProcResult) (dh : Bool) :
    (((WatchCommand.init name args t).run res dh).hasChanged = false
       ↔ adler32 res.out = adler32 []) ∧
    (res.out = [] →
      ((WatchCommand.init name args t).run res dh).hasChanged = false) := by
  have hprev : ((WatchCommand.init name args t).run res dh).prev = adler32 [] := rfl
  have hbuf : ((WatchCommand.init name args t).run res dh).buf = res.out := rfl
  constructor
  · unfold WatchCommand.hasChanged
    rw [hprev, hbuf, bne_eq_false_iff_eq]
    exact eq_comm
  · intro h
    unfold WatchCommand.hasChanged
    rw [hprev, hbuf, h]
    exact bne_self_eq_false _

theorem first_run_hasChanged_iff_witness :
    ((WatchCommand.init "c" [] 60).run ⟨[], ProcExit.success⟩ false).hasChanged
      = false :=
  (first_run_hasChanged_iff "c" [] 60 ⟨[], ProcExit.success⟩ false).2 rfl

/-- Claim C3: in a cycle where the path update reports no change, the command
is not executed (the loop state's command is untouched, `ran` is false) and
no frame or status is written; the loop goes directly back to the delay. -/
theorem cycle_skips_when_paths_unchanged (fs : FS) (res : ProcResult) (dh : Bool)
    (st : LoopState) (paths' : WatchPaths)
    (h1 : WatchPaths.update fs st.paths = Except.ok paths')
    (h2 : paths'.hasChanged = false) :
    cycle fs res dh st
      = CycleResult.step { st with paths := paths' } false none none := by
  unfold cycle
  rw [h1]
  simp [h2]

theorem cycle_skips_when_paths_unchanged_witness :
    cycle fsEmptyDir ⟨[], ProcExit.success⟩ false
        ⟨WatchCommand.init "c" [] 60, WatchPaths.present ⟨[], ["d"], 0, adlerInit⟩, true⟩
      = CycleResult.step
          ⟨WatchCommand.init "c" [] 60, WatchPaths.present ⟨[], ["d"], 1, adlerInit⟩, true⟩
          false none none :=
  cycle_skips_when_paths_unchanged fsEmptyDir ⟨[], ProcExit.success⟩ false
    ⟨WatchCommand.init "c" [] 60, WatchPaths.present ⟨[], ["d"], 0, adlerInit⟩, true⟩
    (WatchPaths.present ⟨[], ["d"], 1, adlerInit⟩) rfl rfl

/-- Claim C1: in a cycle that executes the command, a non-zero exit status is
pushed as a status annotation carrying the exit code and the loop continues;
an exceeded deadline terminates the loop fatally with a message naming the
configured timeout; any other execution error also terminates fatally. -/
theorem cycle_outcome_handling (fs : FS) (res : ProcResult) (dh : Bool)
    (st : LoopState) (paths' : WatchPaths)
    (h1 : WatchPaths.update fs st.paths = Except.ok paths')
    (h2 : paths'.hasChanged = true) :
    ((∀ k, dh = false → res.exit = ProcExit.exitCode k →
        cycle fs res dh st
          = CycleResult.step ⟨st.cmd.run res dh, paths', false⟩ true
              (some ("exit code " ++ toString k))
              (if (st.cmd.run res dh).hasChanged || st.first
                 then some (st.cmd.run res dh).buf else none)) ∧
     (dh = true →
        cycle fs res dh st
          = CycleResult.fatal true
              ("timeout after " ++ toString st.cmd.timeoutSecs ++ "s")) ∧
     (∀ m, dh = false → res.exit = ProcExit.startErr m →
        cycle fs res dh st
          = CycleResult.fatal true ("executing " ++ st.cmd.name ++ ": " ++ m))) := by
  refine ⟨?_, ?_, ?_⟩
  · intro k hdh hex
    subst hdh
    unfold cycle
    rw [h1]
    simp only [h2, if_true]
    obtain ⟨out, ex⟩ := res
    cases hex
    simp [WatchCommand.run, classifyErr]
  · intro hdh
    subst hdh
    unfold cycle
    rw [h1]
    simp only [h2, if_true]
    simp [WatchCommand.run, classifyErr]
  · intro m hdh hex
    subst hdh
    unfold cycle
    rw [h1]
    simp only [h2, if_true]
    obtain ⟨out, ex⟩ := res
    cases hex
    simp [WatchCommand.run, classifyErr]

theorem cycle_outcome_handling_witness :
    cycle (fun _ => none) ⟨strBytes "hi", ProcExit.exitCode 3⟩ false
        ⟨WatchCommand.init "c" [] 60, WatchPaths.absent, true⟩
      = CycleResult.step
          ⟨⟨"c", [], 60, strBytes "hi", 1, CmdErr.exitError 3⟩, WatchPaths.absent, false⟩
          true (some "exit code 3") (some (strBytes "hi")) ∧
    cycle (fun _ => none) ⟨strBytes "hi", ProcExit.exitCode 3⟩ true
        ⟨WatchCommand.init "c" [] 60, WatchPaths.absent, true⟩
      = CycleResult.fatal true "timeout after 60s" :=
  ⟨(cycle_outcome_handling (fun _ => none) ⟨strBytes "hi", ProcExit.exitCode 3⟩ false
      ⟨WatchCommand.init "c" [] 60, WatchPaths.absent, true⟩ WatchPaths.absent
      rfl rfl).1 3 rfl rfl,
   (cycle_outcome_handling (fun _ => none) ⟨strBytes "hi", ProcExit.exitCode 3⟩ true
      ⟨WatchCommand.init "c" [] 60, WatchPaths.absent, true⟩ WatchPaths.absent
      rfl rfl).2.1 rfl⟩

/-- Claim C4 (counterexample): a timed-out cycle executes the command and the
output did change, yet no frame is written: the loop bails before reaching
the redraw, so "frame written iff output changed or first execution" fails as
stated. -/
theorem redraw_rule_counterexample :
    ((WatchCommand.init "c" [] 60).run
        ⟨strBytes "out", ProcExit.success⟩ true).hasChanged = true ∧
    cycle (fun _ => none) ⟨strBytes "out", ProcExit.success⟩ true
        ⟨WatchCommand.init "c" [] 60, WatchPaths.absent, true⟩
      = CycleResult.fatal true "timeout after 60s" :=
  ⟨rfl, rfl⟩

/-- Claim C4 (amended): in every cycle that executes the command and whose
outcome classification does not terminate the loop fatally, a full frame of
the captured output is written iff the output changed since the previous
execution or this is the first cycle that executed the command. -/
theorem redraw_iff_changed_or_first (fs : FS) (res : ProcResult) (dh : Bool)
    (st : LoopState) (paths' : WatchPaths) (status : String)
    (h1 : WatchPaths.update fs st.paths = Except.ok paths')
    (h2 : paths'.hasChanged = true)
    (h3 : classifyErr (st.cmd.run res dh) = Except.ok status) :
    cycle fs res dh st
      = CycleResult.step ⟨st.cmd.run res dh, paths', false⟩ true (some status)
          (if (st.cmd.run res dh).hasChanged || st.first
             then some (st.cmd.run res dh).buf else none) := by
  unfold cycle
  rw [h1]
  simp only [h2, if_true, h3]

theorem redraw_iff_changed_or_first_witness :
    cycle (fun _ => none) ⟨strBytes "ok", ProcExit.success⟩ false
        ⟨WatchCommand.init "c" [] 60, WatchPaths.absent, false⟩
      = CycleResult.step
          ⟨⟨"c", [], 60, strBytes "ok", 1, CmdErr.noError⟩, WatchPaths.absent, false⟩
          true (some "") (some (strBytes "ok")) :=
  redraw_iff_changed_or_first (fun _ => none) ⟨strBytes "ok", ProcExit.success⟩ false
    ⟨WatchCommand.init "c" [] 60, WatchPaths.absent, false⟩ WatchPaths.absent ""
    rfl rfl rfl

/-- Claim C5: an empty path string yields the absent watcher; `hasChanged()`
is true on every call no matter how many updates precede it, so every cycle
reaches `cmd.run()`. -/
theorem absent_watcher_always_runs (fs : FS) (n : Nat) (res : ProcResult)
    (dh : Bool) (cmd : WatchCommand) (first : Bool) :
    NewWatchPaths fs "" = Except.ok WatchPaths.absent ∧
    updateIter fs n WatchPaths.absent = Except.ok WatchPaths.absent ∧
    WatchPaths.absent.hasChanged = true ∧
    (cycle fs res dh ⟨cmd, WatchPaths.absent, first⟩).ran = true := by
  refine ⟨rfl, ?_, rfl, ?_⟩
  · induction n with
    | zero => rfl
    | succ n ih => simpa [updateIter, WatchPaths.update] using ih
  · unfold cycle
    simp only [WatchPaths.update, WatchPaths.hasChanged, if_true]
    cases h : classifyErr (cmd.run res dh) <;> simp [h, CycleResult.ran]

set_option maxRecDepth 4000 in
/-- Claim C6: a present watcher whose configured paths contain zero regular
files: after the first `update()` the previous and current fingerprints are
equal, `hasChanged()` is false, and the command is not run on cycle one. -/
theorem empty_watch_set_no_first_run (fs : FS) (st0 : WatchPathsState)
    (cmd : WatchCommand) (first : Bool) (res : ProcResult) (dh : Bool)
    (hfresh : st0.hash = adlerInit)
    (hempty : producedChunks fs st0 = Except.ok []) :
    WatchPaths.update fs (WatchPaths.present st0)
        = Except.ok (WatchPaths.present { st0 with prev := 1, hash := adlerInit }) ∧
    ({ st0 with prev := 1, hash := adlerInit } : WatchPathsState).prev
        = ({ st0 with prev := 1, hash := adlerInit } : WatchPathsState).hash.sum32 ∧
    (WatchPaths.present { st0 with prev := 1, hash := adlerInit }).hasChanged = false ∧
    cycle fs res dh ⟨cmd, WatchPaths.present st0, first⟩
      = CycleResult.step
          ⟨cmd, WatchPaths.present { st0 with prev := 1, hash := adlerInit }, first⟩
          false none none := by
  have hupd : WatchPaths.update fs (WatchPaths.present st0)
      = Except.ok (WatchPaths.present { st0 with prev := 1, hash := adlerInit }) := by
    rw [update_present_eq, hempty, hfresh]
    show Except.ok (WatchPaths.present
        (WatchPathsState.mk st0.files st0.dirs adlerInit.sum32 (adlerFeedChunks adlerInit [])))
      = Except.ok (WatchPaths.present { st0 with prev := 1, hash := adlerInit })
    rfl
  refine ⟨hupd, by simp [adlerInit_sum32], by simp [WatchPaths.hasChanged, adlerInit_sum32], ?_⟩
  show cycle fs res dh ⟨cmd, WatchPaths.present st0, first⟩
      = CycleResult.step
          ⟨cmd, WatchPaths.present { st0 with prev := 1, hash := adlerInit }, first⟩
          false none none
  unfold cycle
  rw [show (⟨cmd, WatchPaths.present st0, first⟩ : LoopState).paths
        = WatchPaths.present st0 from rfl, hupd]
  simp [WatchPaths.hasChanged, adlerInit_sum32]

theorem empty_watch_set_no_first_run_witness :
    WatchPaths.update fsEmptyDir (WatchPaths.present ⟨[], ["d"], 0, adlerInit⟩)
        = Except.ok (WatchPaths.present ⟨[], ["d"], 1, adlerInit⟩) ∧
    (⟨[], ["d"], 1, adlerInit⟩ : WatchPathsState).prev
        = (⟨[], ["d"], 1, adlerInit⟩ : WatchPathsState).hash.sum32 ∧
    (WatchPaths.present ⟨[], ["d"], 1, adlerInit⟩).hasChanged = false ∧
    cycle fsEmptyDir ⟨strBytes "x", ProcExit.success⟩ false
        ⟨WatchCommand.init "w" [] 60, WatchPaths.present ⟨[], ["d"], 0, adlerInit⟩, true⟩
      = CycleResult.step
          ⟨WatchCommand.init "w" [] 60, WatchPaths.present ⟨[], ["d"], 1, adlerInit⟩, true⟩
          false none none :=
  empty_watch_set_no_first_run fsEmptyDir ⟨[], ["d"], 0, adlerInit⟩
    (WatchCommand.init "w" [] 60) true ⟨strBytes "x", ProcExit.success⟩ false rfl rfl

/-- Claim C9: every successful `update()` of a present watcher feeds the file
contents in a stable order — the explicitly configured files first, in their
configured order, then the regular files of each configured directory's
depth-first lexical walk, in turn — and the resulting accumulator equals
hashing that single concatenated stream. -/
theorem update_stable_order (fs : FS) (st : WatchPathsState)
    (fileData dirData : List (List Nat))
    (hf : readFiles fs st.files = Except.ok fileData)
    (hd : walkDirs fs st.dirs = Except.ok dirData) :
    WatchPaths.update fs (WatchPaths.present st)
      = Except.ok (WatchPaths.present
          { st with prev := st.hash.sum32,
                    hash := adlerWrite adlerInit (fileData ++ dirData).flatten }) := by
  rw [update_present_eq]
  unfold producedChunks
  rw [hf, hd]
  simp [adlerFeedChunks_eq_write_join]

theorem update_stable_order_witness :
    WatchPaths.update fsNested (WatchPaths.present ⟨["f"], ["d"], 0, adlerInit⟩)
      = Except.ok (WatchPaths.present ⟨["f"], ["d"], 1,
          adlerWrite adlerInit ([[1, 2]] ++ [[4], [3], [5]]).flatten⟩) :=
  update_stable_order fsNested ⟨["f"], ["d"], 0, adlerInit⟩
    [[1, 2]] [[4], [3], [5]] rfl rfl

theorem fieldsGo_all_space (cs : List Char) (h : cs.all isSpaceChar = true) :
    fieldsGo cs [] = [] := by
  induction cs with
  | nil => rfl
  | cons c rest ih =>
      simp only [List.all_cons, Bool.and_eq_true] at h
      simp [fieldsGo, h.1, ih h.2]

/-- Claim C10: a non-empty path string consisting only of whitespace yields a
present watcher with zero files and zero directories (not the absent
watcher); after every `update()` the previous and current fingerprints are
equal, `hasChanged()` is always false, and so the command is never executed
on any cycle. -/
theorem whitespace_paths_never_run (fs : FS) (pathStr : String) (n : Nat)
    (cmd : WatchCommand) (first : Bool) (res : ProcResult) (dh : Bool) (p : Nat)
    (hne : pathStr ≠ "") (hsp : pathStr.data.all isSpaceChar = true) :
    NewWatchPaths fs pathStr
        = Except.ok (WatchPaths.present ⟨[], [], 0, adlerInit⟩) ∧
    updateIter fs (n + 1) (WatchPaths.present ⟨[], [], 0, adlerInit⟩)
        = Except.ok (WatchPaths.present ⟨[], [], 1, adlerInit⟩) ∧
    (WatchPaths.present ⟨[], [], 1, adlerInit⟩).hasChanged = false ∧
    cycle fs res dh ⟨cmd, WatchPaths.present ⟨[], [], p, adlerInit⟩, first⟩
      = CycleResult.step ⟨cmd, WatchPaths.present ⟨[], [], 1, adlerInit⟩, first⟩
          false none none := by
  have hfields : fields pathStr = [] := by
    unfold fields
    rw [fieldsGo_all_space pathStr.data hsp]
    rfl
  have hchunks : ∀ q, producedChunks fs ⟨[], [], q, adlerInit⟩ = Except.ok [] :=
    fun q => rfl
  have hupd1 : ∀ q, WatchPaths.update fs (WatchPaths.present ⟨[], [], q, adlerInit⟩)
      = Except.ok (WatchPaths.present ⟨[], [], 1, adlerInit⟩) := by
    intro q
    rw [update_present_eq, hchunks q]
    show Except.ok (WatchPaths.present
        (WatchPathsState.mk [] [] (Adler.sum32 adlerInit) (adlerFeedChunks adlerInit [])))
      = Except.ok (WatchPaths.present ⟨[], [], 1, adlerInit⟩)
    rw [adlerInit_sum32]
    rfl
  have hfix : ∀ m, updateIter fs m (WatchPaths.present ⟨[], [], 1, adlerInit⟩)
      = Except.ok (WatchPaths.present ⟨[], [], 1, adlerInit⟩) := by
    intro m
    induction m with
    | zero => rfl
    | succ m ih =>
        unfold updateIter
        rw [hupd1 1]
        exact ih
  refine ⟨?_, ?_, rfl, ?_⟩
  · unfold NewWatchPaths
    rw [if_neg hne, hfields]
    rfl
  · unfold updateIter
    rw [hupd1 0]
    exact hfix n
  · unfold cycle
    rw [show (⟨cmd, WatchPaths.present ⟨[], [], p, adlerInit⟩, first⟩ : LoopState).paths
          = WatchPaths.present ⟨[], [], p, adlerInit⟩ from rfl, hupd1 p]
    simp [WatchPaths.hasChanged, adlerInit_sum32]

theorem whitespace_paths_never_run_witness :
    NewWatchPaths (fun _ => none) " "
        = Except.ok (WatchPaths.present ⟨[], [], 0, adlerInit⟩) ∧
    updateIter (fun _ => none) 1 (WatchPaths.present ⟨[], [], 0, adlerInit⟩)
        = Except.ok (WatchPaths.present ⟨[], [], 1, adlerInit⟩) ∧
    (WatchPaths.present ⟨[], [], 1, adlerInit⟩).hasChanged = false ∧
    cycle (fun _ => none) ⟨strBytes "x", ProcExit.success⟩ false
        ⟨WatchCommand.init "w" [] 60, WatchPaths.present ⟨[], [], 0, adlerInit⟩, true⟩
      = CycleResult.step
          ⟨WatchCommand.init "w" [] 60, WatchPaths.present ⟨[], [], 1, adlerInit⟩, true⟩
          false none none :=
  whitespace_paths_never_run (fun _ => none) " " 0 (WatchCommand.init "w" [] 60) true
    ⟨strBytes "x", ProcExit.success⟩ false 0 (by decide) (by decide)
